import Mathlib

/-!
Verification of the expense-reporting backend (Hono handlers in the
server entrypoint, plus the client-side currency helper and the expense
form submit flow).

The key-value persistence module (kv_store.tsx) is imported by the server
but its source is not part of this repository snapshot; its get/set/del
contract is modelled from the documented record-store contract
(get returns value or absent; set overwrites; del removes; no atomicity
across keys). Every handler is translated directly from the server file.
-/

namespace ExpenseManager

/-- Status union type, from the client database types:
`status: 'pending' | 'approved' | 'rejected'`. -/
inductive Status where
  | pending
  | approved
  | rejected
deriving DecidableEq, Repr

/-- User record, from the `User` interface in the client database types.
`manager_id` is optional (`manager_id?: string`). -/
structure UserRec where
  id : String
  email : String
  name : String
  role : String
  company_id : String
  manager_id : Option String
  is_manager_approver : Bool
  created_at : String
deriving DecidableEq, Repr

/-- Expense record as persisted by POST /expenses: the client payload
(employee_id, amount, currency, amount_in_company_currency, category,
description, date, receipt_url) spread together with the generated id,
`status: 'pending'` and `created_at`. Monetary amounts are modelled as
rationals. -/
structure ExpenseRec where
  id : String
  employee_id : String
  amount : ℚ
  currency : String
  amount_in_company_currency : ℚ
  category : String
  description : String
  date : String
  receipt_url : Option String
  status : Status
  created_at : String
deriving DecidableEq, Repr

/-- Approval step record, from the `ApprovalStep` interface and the object
built by POST /expenses (comments and decided_at are added only by the
decision handler, so they are optional). -/
structure ApprovalStep where
  id : String
  expense_id : String
  approver_id : String
  status : Status
  comments : Option String
  sequence : Nat
  decided_at : Option String
  created_at : String
deriving DecidableEq, Repr

/-- A value stored in the key-value namespace: user records at `user:{id}`,
user-id strings at `user:email:{email}`, expenses at `expense:{id}`,
approval steps at `approval_step:{id}`. -/
inductive Val where
  | user (u : UserRec)
  | expense (e : ExpenseRec)
  | step (s : ApprovalStep)
  | str (s : String)
deriving DecidableEq, Repr

/-- Modelled from the spec: the key-value record store (kv_store.tsx is not
in this snapshot). A store is a sequence of key/value bindings; the newest
binding for a key shadows older ones. -/
abbrev Store := List (String × Val)

/-- Modelled from the spec: `get(key) -> value|absent`. -/
def kvGet (st : Store) (k : String) : Option Val :=
  (st.find? (fun e => e.1 == k)).map (fun e => e.2)

/-- Modelled from the spec: `set(key, value) -> ok`, overwriting any
previous binding for the key. -/
def kvSet (st : Store) (k : String) (v : Val) : Store :=
  (k, v) :: st.filter (fun e => e.1 != k)

/-- Modelled from the spec: `delete(key) -> ok`. -/
def kvDel (st : Store) (k : String) : Store :=
  st.filter (fun e => e.1 != k)

theorem kvGet_kvSet_self (st : Store) (k : String) (v : Val) :
    kvGet (kvSet st k v) k = some v := by
  simp [kvGet, kvSet]

theorem kvGet_kvSet_ne (st : Store) (k k' : String) (v : Val) (h : k' ≠ k) :
    kvGet (kvSet st k v) k' = kvGet st k' := by
  simp only [kvGet, kvSet, List.find?]
  have hk : ((k, v).1 == k') = false := by
    simp [beq_iff_eq]
    exact fun hkk => h hkk.symm
  rw [hk]
  induction st with
  | nil => rfl
  | cons hd tl ih =>
    by_cases hhd : hd.1 = k
    · have h1 : (hd.1 != k) = false := by simp [hhd]
      have h2 : (hd.1 == k') = false := by
        simp [beq_iff_eq, hhd]
        exact fun hkk => h hkk.symm
      simp only [List.filter, h1, List.find?, h2]
      exact ih
    · have h1 : (hd.1 != k) = true := by simp [hhd]
      simp only [List.filter, h1, List.find?]
      cases hfind : (hd.1 == k') with
      | false => exact ih
      | true => rfl

theorem kvGet_kvDel_self (st : Store) (k : String) :
    kvGet (kvDel st k) k = none := by
  induction st with
  | nil => rfl
  | cons hd tl ih =>
    by_cases hhd : hd.1 = k
    · have h1 : (hd.1 != k) = false := by simp [hhd]
      simpa only [kvDel, List.filter, h1] using ih
    · have h1 : (hd.1 != k) = true := by simp [hhd]
      have h2 : (hd.1 == k) = false := by simp [hhd]
      simp only [kvDel, List.filter, h1, kvGet, List.find?, h2] at *
      exact ih

theorem kvGet_kvDel_ne (st : Store) (k k' : String) (h : k ≠ k') :
    kvGet (kvDel st k') k = kvGet st k := by
  induction st with
  | nil => rfl
  | cons hd tl ih =>
    by_cases hhd : hd.1 = k'
    · have h1 : (hd.1 != k') = false := by simp [hhd]
      have h2 : (hd.1 == k) = false := by
        simp only [beq_eq_false_iff_ne, ne_eq, hhd]
        exact fun hc => h hc.symm
      simp only [kvDel, List.filter, h1, kvGet, List.find?, h2] at *
      exact ih
    · have h1 : (hd.1 != k') = true := by simp [hhd]
      simp only [kvDel, List.filter, h1, kvGet, List.find?] at *
      cases hfind : (hd.1 == k) with
      | false => simpa [hfind] using ih
      | true => simp [hfind]

theorem key_ne_of_head (p q a b : String) (cp cq : Char)
    (hp : p.data.head? = some cp) (hq : q.data.head? = some cq)
    (hc : cp ≠ cq) : p ++ a ≠ q ++ b := by
  intro h
  have h2 := congrArg (fun s => s.data.head?) h
  simp only [String.data_append, List.head?_append] at h2
  rw [hp, hq] at h2
  simp at h2
  exact hc h2

theorem stepKey_ne_expenseKey (a b : String) :
    ("approval_step:" ++ a) ≠ ("expense:" ++ b) :=
  key_ne_of_head _ _ a b 'a' 'e' (by decide) (by decide) (by decide)

theorem expenseKey_ne_userKey (a b : String) :
    ("expense:" ++ a) ≠ ("user:" ++ b) :=
  key_ne_of_head _ _ a b 'e' 'u' (by decide) (by decide) (by decide)

/-! ## Currency conversion

The same static rate table appears twice in the sources: in the server
conversion endpoint GET /convert/:from/:to/:amount and in the client
helper `convertCurrency`. JS `Math.round` rounds half toward positive
infinity. -/

/-- JS `Math.round`: round to the nearest integer, halves toward +inf. -/
def jsRound (x : ℚ) : ℤ := ⌊x + 1/2⌋

/-- JS `conversionRates[from]?.[to] || 1`: an absent entry (undefined) and
a zero entry are both falsy and fall back to rate 1. -/
def jsOr1 (r : Option ℚ) : ℚ :=
  match r with
  | some v => if v = 0 then 1 else v
  | none => 1

/-- The static rate table, `conversionRates[f]?.[t]` as a two-level lookup
(nested conditionals transliterate the two nested object literals, row
order and entry order preserved). -/
def lookupRate (f t : String) : Option ℚ :=
  if f = "USD" then
    if t = "EUR" then some 0.85 else if t = "GBP" then some 0.73
    else if t = "JPY" then some 110 else if t = "USD" then some 1 else none
  else if f = "EUR" then
    if t = "USD" then some 1.18 else if t = "GBP" then some 0.86
    else if t = "JPY" then some 129 else if t = "EUR" then some 1 else none
  else if f = "GBP" then
    if t = "USD" then some 1.37 else if t = "EUR" then some 1.16
    else if t = "JPY" then some 151 else if t = "GBP" then some 1 else none
  else if f = "JPY" then
    if t = "USD" then some 0.0091 else if t = "EUR" then some 0.0077
    else if t = "GBP" then some 0.0066 else if t = "JPY" then some 1 else none
  else none

/-- Rounding to two decimal places the way both conversion functions do:
`Math.round(x * 100) / 100`. -/
def round2 (x : ℚ) : ℚ := (jsRound (x * 100) : ℚ) / 100

/-- The server conversion endpoint GET /convert/:from/:to/:amount:
`rate = conversionRates[from]?.[to] || 1;
convertedAmount = Math.round(parseFloat(amount) * rate * 100) / 100`.
Note: no early return for `from == to`; the rounding is always applied. -/
def serverConvert (amount : ℚ) (f t : String) : ℚ :=
  (jsRound (amount * jsOr1 (lookupRate f t) * 100) : ℚ) / 100

/-- The client helper `convertCurrency` (same table): it returns the input
unchanged when `fromCurrency === toCurrency`, before any rounding. -/
def convertCurrency (amount : ℚ) (fromCurrency toCurrency : String) : ℚ :=
  if fromCurrency = toCurrency then amount
  else (jsRound (amount * jsOr1 (lookupRate fromCurrency toCurrency) * 100) : ℚ) / 100

theorem lookupRate_ne_zero {f t : String} {r : ℚ}
    (h : lookupRate f t = some r) : r ≠ 0 := by
  intro hr
  subst hr
  revert h
  unfold lookupRate
  split_ifs <;> simp <;> norm_num

theorem jsOr1_lookupRate_self (f : String) : jsOr1 (lookupRate f f) = 1 := by
  unfold lookupRate
  split_ifs <;> simp_all +decide [jsOr1]

/-! ## Server handlers -/

/-- The request payload that the expense form posts to POST /expenses. -/
structure ExpenseInput where
  employee_id : String
  amount : ℚ
  currency : String
  amount_in_company_currency : ℚ
  category : String
  description : String
  date : String
  receipt_url : Option String
deriving DecidableEq, Repr

/-- JS `comments || null`: undefined and the empty string are falsy and
are stored as null. -/
def jsOrNull (c : Option String) : Option String :=
  match c with
  | some s => if s = "" then none else some s
  | none => none

/-- The expense object literal persisted by POST /expenses: the request
payload spread together with the generated id, status `pending` and the
creation timestamp. -/
def mkExpense (input : ExpenseInput) (expenseId now : String) : ExpenseRec := {
  id := expenseId
  employee_id := input.employee_id
  amount := input.amount
  currency := input.currency
  amount_in_company_currency := input.amount_in_company_currency
  category := input.category
  description := input.description
  date := input.date
  receipt_url := input.receipt_url
  status := Status.pending
  created_at := now }

/-- The approval-step object literal persisted by POST /expenses when the
employee has a manager: sequence 1, status `pending`. -/
def mkApprovalStep (expenseId approverId approvalStepId now : String) : ApprovalStep := {
  id := approvalStepId
  expense_id := expenseId
  approver_id := approverId
  status := Status.pending
  comments := none
  sequence := 1
  decided_at := none
  created_at := now }

/-- POST /expenses: persist the expense with status `pending` and a fresh
id and timestamp; then, if the employee record exists and
`user.manager_id` is truthy (present and nonempty), additionally persist a
single approval step for that manager with sequence 1 and status
`pending`. The generated ids and the timestamp are passed as parameters
(the code derives them from Date.now / new Date). -/
def createExpense (st : Store) (input : ExpenseInput)
    (expenseId approvalStepId now : String) : Store × ExpenseRec :=
  let expense := mkExpense input expenseId now
  let st1 := kvSet st ("expense:" ++ expenseId) (Val.expense expense)
  match kvGet st1 ("user:" ++ input.employee_id) with
  | some (Val.user u) =>
    match u.manager_id with
    | some mid =>
      if mid = "" then (st1, expense)
      else
        let step := mkApprovalStep expenseId mid approvalStepId now
        (kvSet st1 ("approval_step:" ++ approvalStepId) (Val.step step), expense)
    | none => (st1, expense)
  | some _ => (st1, expense)
  | none => (st1, expense)

/-- Outcome of POST /approvals/:approvalId: a 404 error body, or a 200
response carrying the updated approval step. -/
inductive DecideResult where
  | notFound
  | ok (step : ApprovalStep)
deriving DecidableEq, Repr

/-- POST /approvals/:approvalId: look up the step (404 when absent);
overwrite its status, comments and decided_at; then look up its expense
and, only when that record exists, overwrite the expense status with the
same value. Records at `approval_step:` keys are approval steps (they are
written only by createExpense and by this handler). -/
def processApproval (st : Store) (approvalId : String) (status : Status)
    (comments : Option String) (now : String) : Store × DecideResult :=
  match kvGet st ("approval_step:" ++ approvalId) with
  | some (Val.step approval) =>
    let updatedApproval : ApprovalStep :=
      { approval with
          status := status
          comments := jsOrNull comments
          decided_at := some now }
    let st1 := kvSet st ("approval_step:" ++ approvalId) (Val.step updatedApproval)
    match kvGet st1 ("expense:" ++ approval.expense_id) with
    | some (Val.expense expense) =>
      let updatedExpense := { expense with status := status }
      (kvSet st1 ("expense:" ++ approval.expense_id) (Val.expense updatedExpense),
        DecideResult.ok updatedApproval)
    | _ => (st1, DecideResult.ok updatedApproval)
  | _ => (st, DecideResult.notFound)

/-- DELETE /users/:userId: 404 when the record is absent; otherwise delete
the primary record and the email-lookup record. Reading `.email` off a
non-user value gives JS undefined, interpolated as the literal text
undefined. -/
def deleteUser (st : Store) (userId : String) : Store × Bool :=
  match kvGet st ("user:" ++ userId) with
  | none => (st, false)
  | some v =>
    let email := match v with
      | Val.user u => u.email
      | _ => "undefined"
    (kvDel (kvDel st ("user:" ++ userId)) ("user:email:" ++ email), true)

/-- GET /user/:email: read the email-lookup record (404 when absent or
falsy, i.e. an empty id string), then return whatever sits at the
resolved user key (a missing record is returned as null, JS object values
interpolate as the literal text object Object). `none` is the 404
response; `some r` is a 200 response with body `r`. -/
def getUserByEmail (st : Store) (email : String) : Option (Option Val) :=
  match kvGet st ("user:email:" ++ email) with
  | some (Val.str userId) =>
    if userId = "" then none else some (kvGet st ("user:" ++ userId))
  | some _ => some (kvGet st ("user:" ++ "[object Object]"))
  | none => none

/-- The expense-form submit flow: convert the amount into the company
currency (hardcoded to USD in the form) through the server conversion
endpoint, then post the payload to POST /expenses. -/
def handleSubmitExpense (st : Store) (employee_id : String) (amount : ℚ)
    (currency category description date : String) (receipt_url : Option String)
    (expenseId approvalStepId now : String) : Store × ExpenseRec :=
  let companyCurrency := "USD"
  let converted := serverConvert amount currency companyCurrency
  createExpense st {
    employee_id := employee_id
    amount := amount
    currency := currency
    amount_in_company_currency := converted
    category := category
    description := description
    date := date
    receipt_url := receipt_url } expenseId approvalStepId now

/-! ## Evaluation lemmas for the handlers -/

theorem processApproval_found_expense
    (st : Store) (aid now : String) (comments : Option String) (o : Status)
    (s : ApprovalStep) (e : ExpenseRec)
    (hs : kvGet st ("approval_step:" ++ aid) = some (Val.step s))
    (he : kvGet st ("expense:" ++ s.expense_id) = some (Val.expense e)) :
    processApproval st aid o comments now =
      (kvSet (kvSet st ("approval_step:" ++ aid)
          (Val.step { s with status := o, comments := jsOrNull comments, decided_at := some now }))
        ("expense:" ++ s.expense_id) (Val.expense { e with status := o }),
       DecideResult.ok { s with status := o, comments := jsOrNull comments, decided_at := some now }) := by
  have hne : ("expense:" ++ s.expense_id) ≠ ("approval_step:" ++ aid) :=
    Ne.symm (stepKey_ne_expenseKey aid s.expense_id)
  simp only [processApproval, hs]
  rw [kvGet_kvSet_ne _ _ _ _ hne, he]

theorem processApproval_found_no_expense
    (st : Store) (aid now : String) (comments : Option String) (o : Status)
    (s : ApprovalStep)
    (hs : kvGet st ("approval_step:" ++ aid) = some (Val.step s))
    (he : kvGet st ("expense:" ++ s.expense_id) = none) :
    processApproval st aid o comments now =
      (kvSet st ("approval_step:" ++ aid)
          (Val.step { s with status := o, comments := jsOrNull comments, decided_at := some now }),
       DecideResult.ok { s with status := o, comments := jsOrNull comments, decided_at := some now }) := by
  have hne : ("expense:" ++ s.expense_id) ≠ ("approval_step:" ++ aid) :=
    Ne.symm (stepKey_ne_expenseKey aid s.expense_id)
  simp only [processApproval, hs]
  rw [kvGet_kvSet_ne _ _ _ _ hne, he]

theorem processApproval_not_found
    (st : Store) (aid now : String) (comments : Option String) (o : Status)
    (hs : kvGet st ("approval_step:" ++ aid) = none) :
    processApproval st aid o comments now = (st, DecideResult.notFound) := by
  simp only [processApproval, hs]

theorem createExpense_with_manager
    (st : Store) (input : ExpenseInput) (expenseId approvalStepId now : String)
    (u : UserRec) (mid : String)
    (hu : kvGet st ("user:" ++ input.employee_id) = some (Val.user u))
    (hm : u.manager_id = some mid) (hmne : mid ≠ "") :
    createExpense st input expenseId approvalStepId now =
      (kvSet (kvSet st ("expense:" ++ expenseId) (Val.expense (mkExpense input expenseId now)))
         ("approval_step:" ++ approvalStepId)
         (Val.step (mkApprovalStep expenseId mid approvalStepId now)),
       mkExpense input expenseId now) := by
  have hcomm : kvGet (kvSet st ("expense:" ++ expenseId)
        (Val.expense (mkExpense input expenseId now))) ("user:" ++ input.employee_id) =
      kvGet st ("user:" ++ input.employee_id) :=
    kvGet_kvSet_ne _ _ _ _ (Ne.symm (expenseKey_ne_userKey expenseId input.employee_id))
  simp only [createExpense, hcomm, hu, hm, if_neg hmne]

theorem createExpense_no_manager
    (st : Store) (input : ExpenseInput) (expenseId approvalStepId now : String)
    (hnm : ∀ u : UserRec, kvGet st ("user:" ++ input.employee_id) = some (Val.user u) →
      u.manager_id = none ∨ u.manager_id = some "") :
    createExpense st input expenseId approvalStepId now =
      (kvSet st ("expense:" ++ expenseId) (Val.expense (mkExpense input expenseId now)),
       mkExpense input expenseId now) := by
  have hcomm : kvGet (kvSet st ("expense:" ++ expenseId)
        (Val.expense (mkExpense input expenseId now))) ("user:" ++ input.employee_id) =
      kvGet st ("user:" ++ input.employee_id) :=
    kvGet_kvSet_ne _ _ _ _ (Ne.symm (expenseKey_ne_userKey expenseId input.employee_id))
  cases hval : kvGet st ("user:" ++ input.employee_id) with
  | none => simp only [createExpense, hcomm, hval]
  | some v =>
    cases v with
    | user u =>
      rcases hnm u hval with hm | hm <;>
        simp only [createExpense, hcomm, hval, hm, if_pos rfl, if_true]
    | expense e => simp only [createExpense, hcomm, hval]
    | step s => simp only [createExpense, hcomm, hval]
    | str s => simp only [createExpense, hcomm, hval]

/-! ## Demo records (mirroring the seeded demo data) -/

def demoEmployee : UserRec := {
  id := "employee-001"
  email := "employee@company.com"
  name := "Employee User"
  role := "employee"
  company_id := "demo-company-001"
  manager_id := some "manager-001"
  is_manager_approver := false
  created_at := "t0" }

def demoLoner : UserRec := {
  id := "admin-001"
  email := "admin@company.com"
  name := "Admin User"
  role := "admin"
  company_id := "demo-company-001"
  manager_id := none
  is_manager_approver := false
  created_at := "t0" }

def demoExpense : ExpenseRec := {
  id := "expense-002"
  employee_id := "employee-001"
  amount := 120
  currency := "USD"
  amount_in_company_currency := 120
  category := "Transportation"
  description := "Uber to client meeting"
  date := "2024-01-16"
  receipt_url := none
  status := Status.pending
  created_at := "t0" }

def demoStep : ApprovalStep := {
  id := "approval-001"
  expense_id := "expense-002"
  approver_id := "manager-001"
  status := Status.pending
  comments := none
  sequence := 1
  decided_at := none
  created_at := "t0" }

/-- A step whose expense record is absent from the store. -/
def demoDanglingStep : ApprovalStep := {
  id := "approval-900"
  expense_id := "expense-900"
  approver_id := "manager-001"
  status := Status.pending
  comments := none
  sequence := 1
  decided_at := none
  created_at := "t0" }

def demoStore : Store := [
  ("user:employee-001", Val.user demoEmployee),
  ("user:email:employee@company.com", Val.str "employee-001"),
  ("user:admin-001", Val.user demoLoner),
  ("user:email:admin@company.com", Val.str "admin-001"),
  ("expense:expense-002", Val.expense demoExpense),
  ("approval_step:approval-001", Val.step demoStep),
  ("approval_step:approval-900", Val.step demoDanglingStep)]

/-! ## Claim theorems -/

/-- C2 counterexample: the claim says same-currency conversion is the
identity with no rounding applied, but the server conversion endpoint
applies the in-table rate 1 and rounds: converting 1.234 USD to USD
returns 1.23, not 1.234. -/
theorem serverConvert_same_currency_not_identity :
    serverConvert (1234/1000) "USD" "USD" ≠ 1234/1000 := by
  have h1 : lookupRate "USD" "USD" = some 1 := rfl
  rw [serverConvert, h1]
  norm_num [jsOr1, jsRound]

/-- C2 (amended): same-currency conversion through the client helper
`convertCurrency` returns the amount unchanged with no rounding; the
server conversion endpoint instead applies rate 1 and rounds, returning
`round2 x` for every currency code, so it is the identity only on amounts
already expressible with two decimals. -/
theorem same_currency_conversion (x : ℚ) (f : String) :
    convertCurrency x f f = x ∧ serverConvert x f f = round2 x := by
  constructor
  · rw [convertCurrency, if_pos rfl]
  · rw [serverConvert, jsOr1_lookupRate_self, mul_one, round2]

/-- C6: for a pair present in the rate table, the server conversion
endpoint returns the amount times the table rate rounded to two decimals;
for a pair not in the table the rate defaults to 1 and the endpoint
returns the amount rounded to two decimals. -/
theorem convert_follows_rate_table (x : ℚ) (f t : String) :
    (∀ r : ℚ, lookupRate f t = some r → serverConvert x f t = round2 (x * r)) ∧
    (lookupRate f t = none → serverConvert x f t = round2 x) := by
  constructor
  · intro r hr
    have hrz : r ≠ 0 := lookupRate_ne_zero hr
    rw [serverConvert, hr, round2]
    simp only [jsOr1, if_neg hrz]
  · intro hn
    rw [serverConvert, hn, round2]
    simp only [jsOr1]
    rw [mul_one]

/-- C6 witness: USD to EUR is in the table with rate 0.85; USD to CAD is
not in the table and converts by rounding alone. -/
theorem convert_follows_rate_table_witness :
    (lookupRate "USD" "EUR" = some 0.85 ∧
      serverConvert 100 "USD" "EUR" = round2 (100 * 0.85)) ∧
    (lookupRate "USD" "CAD" = none ∧
      serverConvert (10555/1000) "USD" "CAD" = round2 (10555/1000)) :=
  ⟨⟨rfl, (convert_follows_rate_table 100 "USD" "EUR").1 0.85 rfl⟩,
   ⟨rfl, (convert_follows_rate_table (10555/1000) "USD" "CAD").2 rfl⟩⟩

/-- C4: deciding a step id that is absent from the store returns the 404
NotFound response and leaves the store untouched. -/
theorem decide_missing_step_not_found
    (st : Store) (aid now : String) (comments : Option String) (o : Status)
    (hs : kvGet st ("approval_step:" ++ aid) = none) :
    processApproval st aid o comments now = (st, DecideResult.notFound) :=
  processApproval_not_found st aid now comments o hs

/-- C4 witness: deciding the nonexistent step id approval-999 on the demo
store returns NotFound and the unchanged store. -/
theorem decide_missing_step_not_found_witness :
    processApproval demoStore "approval-999" Status.approved (some "ok") "t1" =
      (demoStore, DecideResult.notFound) :=
  decide_missing_step_not_found demoStore "approval-999" "t1" (some "ok")
    Status.approved (by decide)

/-- C1: deciding an existing step whose expense record exists sets the
step status to the outcome, stores the comment, stamps decided_at, and
overwrites the parent expense status with the same outcome. -/
theorem decide_sets_step_and_expense_status
    (st : Store) (aid now : String) (comments : Option String) (o : Status)
    (s : ApprovalStep) (e : ExpenseRec)
    (ho : o = Status.approved ∨ o = Status.rejected)
    (hs : kvGet st ("approval_step:" ++ aid) = some (Val.step s))
    (he : kvGet st ("expense:" ++ s.expense_id) = some (Val.expense e)) :
    (processApproval st aid o comments now).2 =
      DecideResult.ok { s with status := o, comments := jsOrNull comments, decided_at := some now } ∧
    kvGet (processApproval st aid o comments now).1 ("approval_step:" ++ aid) =
      some (Val.step { s with status := o, comments := jsOrNull comments, decided_at := some now }) ∧
    kvGet (processApproval st aid o comments now).1 ("expense:" ++ s.expense_id) =
      some (Val.expense { e with status := o }) := by
  rw [processApproval_found_expense st aid now comments o s e hs he]
  refine ⟨rfl, ?_, kvGet_kvSet_self _ _ _⟩
  rw [kvGet_kvSet_ne _ _ _ _ (stepKey_ne_expenseKey aid s.expense_id), kvGet_kvSet_self]

/-- C1 witness: approving demo step approval-001 with a comment updates
the stored step and the stored expense expense-002 to approved. -/
theorem decide_sets_step_and_expense_status_witness :
    (processApproval demoStore "approval-001" Status.approved (some "ok") "t1").2 =
      DecideResult.ok { demoStep with status := Status.approved, comments := some "ok", decided_at := some "t1" } ∧
    kvGet (processApproval demoStore "approval-001" Status.approved (some "ok") "t1").1
        ("approval_step:" ++ "approval-001") =
      some (Val.step { demoStep with status := Status.approved, comments := some "ok", decided_at := some "t1" }) ∧
    kvGet (processApproval demoStore "approval-001" Status.approved (some "ok") "t1").1
        ("expense:" ++ "expense-002") =
      some (Val.expense { demoExpense with status := Status.approved }) :=
  decide_sets_step_and_expense_status demoStore "approval-001" "t1" (some "ok")
    Status.approved demoStep demoExpense (Or.inl rfl) (by decide) (by decide)

/-- C10: deciding a step whose referenced expense record is absent still
updates the step and returns the 200 response, and writes no expense
record: the expense overwrite is guarded by the expense existing. -/
theorem decide_dangling_expense_updates_step_only
    (st : Store) (aid now : String) (comments : Option String) (o : Status)
    (s : ApprovalStep)
    (hs : kvGet st ("approval_step:" ++ aid) = some (Val.step s))
    (he : kvGet st ("expense:" ++ s.expense_id) = none) :
    processApproval st aid o comments now =
      (kvSet st ("approval_step:" ++ aid)
         (Val.step { s with status := o, comments := jsOrNull comments, decided_at := some now }),
       DecideResult.ok { s with status := o, comments := jsOrNull comments, decided_at := some now }) ∧
    kvGet (processApproval st aid o comments now).1 ("expense:" ++ s.expense_id) = none := by
  have h := processApproval_found_no_expense st aid now comments o s hs he
  refine ⟨h, ?_⟩
  rw [h]
  rw [kvGet_kvSet_ne _ _ _ _ (Ne.symm (stepKey_ne_expenseKey aid s.expense_id))]
  exact he

/-- C10 witness: demo step approval-900 references the absent expense
expense-900; deciding it succeeds, updates only the step, and still no
expense record exists afterwards. -/
theorem decide_dangling_expense_updates_step_only_witness :
    processApproval demoStore "approval-900" Status.rejected none "t1" =
      (kvSet demoStore ("approval_step:" ++ "approval-900")
         (Val.step { demoDanglingStep with status := Status.rejected, comments := none, decided_at := some "t1" }),
       DecideResult.ok { demoDanglingStep with status := Status.rejected, comments := none, decided_at := some "t1" }) ∧
    kvGet (processApproval demoStore "approval-900" Status.rejected none "t1").1
        ("expense:" ++ "expense-900") = none :=
  decide_dangling_expense_updates_step_only demoStore "approval-900" "t1" none
    Status.rejected demoDanglingStep (by decide) (by decide)

/-- C8: the decision handler checks no precondition beyond existence: it
takes no decider identity at all, and deciding a step that was already
decided succeeds again and simply overwrites the step status, comments
and decided_at, and the parent expense status, with the new outcome. -/
theorem double_decide_overwrites
    (st : Store) (aid t1 t2 : String) (c1 c2 : Option String) (o1 o2 : Status)
    (s : ApprovalStep) (e : ExpenseRec)
    (hs : kvGet st ("approval_step:" ++ aid) = some (Val.step s))
    (he : kvGet st ("expense:" ++ s.expense_id) = some (Val.expense e)) :
    (processApproval (processApproval st aid o1 c1 t1).1 aid o2 c2 t2).2 =
      DecideResult.ok { s with status := o2, comments := jsOrNull c2, decided_at := some t2 } ∧
    kvGet (processApproval (processApproval st aid o1 c1 t1).1 aid o2 c2 t2).1
        ("approval_step:" ++ aid) =
      some (Val.step { s with status := o2, comments := jsOrNull c2, decided_at := some t2 }) ∧
    kvGet (processApproval (processApproval st aid o1 c1 t1).1 aid o2 c2 t2).1
        ("expense:" ++ s.expense_id) =
      some (Val.expense { e with status := o2 }) := by
  have h1 := processApproval_found_expense st aid t1 c1 o1 s e hs he
  have hst1 : (processApproval st aid o1 c1 t1).1 =
      kvSet (kvSet st ("approval_step:" ++ aid)
          (Val.step { s with status := o1, comments := jsOrNull c1, decided_at := some t1 }))
        ("expense:" ++ s.expense_id) (Val.expense { e with status := o1 }) := by
    rw [h1]
  rw [hst1]
  have hs2 : kvGet (kvSet (kvSet st ("approval_step:" ++ aid)
        (Val.step { s with status := o1, comments := jsOrNull c1, decided_at := some t1 }))
      ("expense:" ++ s.expense_id) (Val.expense { e with status := o1 }))
      ("approval_step:" ++ aid) =
      some (Val.step { s with status := o1, comments := jsOrNull c1, decided_at := some t1 }) := by
    rw [kvGet_kvSet_ne _ _ _ _ (stepKey_ne_expenseKey aid s.expense_id), kvGet_kvSet_self]
  have he2 : kvGet (kvSet (kvSet st ("approval_step:" ++ aid)
        (Val.step { s with status := o1, comments := jsOrNull c1, decided_at := some t1 }))
      ("expense:" ++ s.expense_id) (Val.expense { e with status := o1 }))
      ("expense:" ++ s.expense_id) =
      some (Val.expense { e with status := o1 }) :=
    kvGet_kvSet_self _ _ _
  have hpe : ({ s with status := o1, comments := jsOrNull c1, decided_at := some t1 } : ApprovalStep).expense_id = s.expense_id := rfl
  have h2 := processApproval_found_expense
    (kvSet (kvSet st ("approval_step:" ++ aid)
        (Val.step { s with status := o1, comments := jsOrNull c1, decided_at := some t1 }))
      ("expense:" ++ s.expense_id) (Val.expense { e with status := o1 }))
    aid t2 c2 o2
    { s with status := o1, comments := jsOrNull c1, decided_at := some t1 }
    { e with status := o1 } hs2 (hpe ▸ he2)
  rw [hpe] at h2
  rw [h2]
  refine ⟨rfl, ?_, ?_⟩
  · rw [kvGet_kvSet_ne _ _ _ _ (stepKey_ne_expenseKey aid s.expense_id), kvGet_kvSet_self]
  · exact kvGet_kvSet_self _ _ _

/-- C8 witness: demo step approval-001 is first rejected, then approved
again by a second call: the second decision succeeds and overwrites both
the step and the expense with the new outcome. -/
theorem double_decide_overwrites_witness :
    (processApproval (processApproval demoStore "approval-001" Status.rejected (some "no") "t1").1
        "approval-001" Status.approved (some "yes") "t2").2 =
      DecideResult.ok { demoStep with status := Status.approved, comments := some "yes", decided_at := some "t2" } ∧
    kvGet (processApproval (processApproval demoStore "approval-001" Status.rejected (some "no") "t1").1
        "approval-001" Status.approved (some "yes") "t2").1 ("approval_step:" ++ "approval-001") =
      some (Val.step { demoStep with status := Status.approved, comments := some "yes", decided_at := some "t2" }) ∧
    kvGet (processApproval (processApproval demoStore "approval-001" Status.rejected (some "no") "t1").1
        "approval-001" Status.approved (some "yes") "t2").1 ("expense:" ++ "expense-002") =
      some (Val.expense { demoExpense with status := Status.approved }) :=
  double_decide_overwrites demoStore "approval-001" "t1" "t2" (some "no") (some "yes")
    Status.rejected Status.approved demoStep demoExpense (by decide) (by decide)

/-- C3: submitting an expense for an employee whose user record exists
and carries a manager reference persists the pending expense and exactly
one approval step: sequence 1, status pending, approver the manager,
expense_id the new expense. -/
theorem submit_with_manager_single_step
    (st : Store) (input : ExpenseInput) (expenseId approvalStepId now : String)
    (u : UserRec) (mid : String)
    (hu : kvGet st ("user:" ++ input.employee_id) = some (Val.user u))
    (hm : u.manager_id = some mid) (hmne : mid ≠ "") :
    createExpense st input expenseId approvalStepId now =
      (kvSet (kvSet st ("expense:" ++ expenseId) (Val.expense (mkExpense input expenseId now)))
         ("approval_step:" ++ approvalStepId)
         (Val.step (mkApprovalStep expenseId mid approvalStepId now)),
       mkExpense input expenseId now) ∧
    (mkExpense input expenseId now).status = Status.pending ∧
    mkApprovalStep expenseId mid approvalStepId now =
      { id := approvalStepId, expense_id := expenseId, approver_id := mid, status := Status.pending, comments := none, sequence := 1, decided_at := none, created_at := now } :=
  ⟨createExpense_with_manager st input expenseId approvalStepId now u mid hu hm hmne, rfl, rfl⟩

def demoInput : ExpenseInput := {
  employee_id := "employee-001"
  amount := 120
  currency := "USD"
  amount_in_company_currency := 120
  category := "Transportation"
  description := "Uber to client meeting"
  date := "2024-01-16"
  receipt_url := none }

/-- C3 witness: submitting for employee-001 (manager manager-001) on the
demo store stores the pending approval step for manager-001. -/
theorem submit_with_manager_single_step_witness :
    kvGet (createExpense demoStore demoInput "expense-100" "approval-100" "t1").1
        ("approval_step:" ++ "approval-100") =
      some (Val.step (mkApprovalStep "expense-100" "manager-001" "approval-100" "t1")) ∧
    (createExpense demoStore demoInput "expense-100" "approval-100" "t1").2.status =
      Status.pending := by
  have h := submit_with_manager_single_step demoStore demoInput "expense-100" "approval-100"
    "t1" demoEmployee "manager-001" (by decide) rfl (by decide)
  constructor
  · rw [h.1]
    exact kvGet_kvSet_self _ _ _
  · rw [h.1]
    exact h.2.1

/-- C7: submitting an expense for an employee id with no user record, or
whose user record has no (or an empty, hence falsy) manager reference,
still persists the pending expense, creates no approval step, and
returns the expense rather than an error. -/
theorem submit_without_manager_no_step
    (st : Store) (input : ExpenseInput) (expenseId approvalStepId now : String)
    (hnm : ∀ u : UserRec, kvGet st ("user:" ++ input.employee_id) = some (Val.user u) →
      u.manager_id = none ∨ u.manager_id = some "") :
    createExpense st input expenseId approvalStepId now =
      (kvSet st ("expense:" ++ expenseId) (Val.expense (mkExpense input expenseId now)),
       mkExpense input expenseId now) ∧
    (mkExpense input expenseId now).status = Status.pending :=
  ⟨createExpense_no_manager st input expenseId approvalStepId now hnm, rfl⟩

def demoInputGhost : ExpenseInput := {
  employee_id := "ghost"
  amount := 33
  currency := "EUR"
  amount_in_company_currency := 39
  category := "Meals"
  description := "Snacks"
  date := "2024-02-01"
  receipt_url := none }

def demoInputAdmin : ExpenseInput := {
  employee_id := "admin-001"
  amount := 10
  currency := "USD"
  amount_in_company_currency := 10
  category := "Office"
  description := "Pens"
  date := "2024-02-02"
  receipt_url := none }

/-- C7 witness: submitting for the unknown id ghost and for admin-001
(whose record has no manager) stores just the pending expense and no
step, with no error. -/
theorem submit_without_manager_no_step_witness :
    createExpense demoStore demoInputGhost "expense-101" "approval-101" "t1" =
      (kvSet demoStore ("expense:" ++ "expense-101")
         (Val.expense (mkExpense demoInputGhost "expense-101" "t1")),
       mkExpense demoInputGhost "expense-101" "t1") ∧
    createExpense demoStore demoInputAdmin "expense-102" "approval-102" "t1" =
      (kvSet demoStore ("expense:" ++ "expense-102")
         (Val.expense (mkExpense demoInputAdmin "expense-102" "t1")),
       mkExpense demoInputAdmin "expense-102" "t1") := by
  constructor
  · refine (submit_without_manager_no_step demoStore demoInputGhost "expense-101" "approval-101" "t1" ?_).1
    intro u hu
    have hu2 : kvGet demoStore ("user:" ++ "ghost") = some (Val.user u) := hu
    rw [(by decide : kvGet demoStore ("user:" ++ "ghost") = none)] at hu2
    exact Option.noConfusion hu2
  · refine (submit_without_manager_no_step demoStore demoInputAdmin "expense-102" "approval-102" "t1" ?_).1
    intro u hu
    have hu2 : kvGet demoStore ("user:" ++ "admin-001") = some (Val.user u) := hu
    rw [(by decide : kvGet demoStore ("user:" ++ "admin-001") = some (Val.user demoLoner))] at hu2
    injection hu2 with h1
    injection h1 with h2
    subst h2
    exact Or.inl rfl

/-- C5: the submit flow converts the amount into the company currency
(USD) through the server conversion endpoint and persists it as
amount_in_company_currency on the pending expense, alongside the pending
approval step for the manager. -/
theorem submit_flow_converts
    (st : Store) (employee_id : String) (amount : ℚ)
    (currency category description date : String) (receipt_url : Option String)
    (expenseId approvalStepId now : String) (u : UserRec) (mid : String)
    (hu : kvGet st ("user:" ++ employee_id) = some (Val.user u))
    (hm : u.manager_id = some mid) (hmne : mid ≠ "") :
    (handleSubmitExpense st employee_id amount currency category description date receipt_url expenseId approvalStepId now).2.amount_in_company_currency =
      serverConvert amount currency "USD" ∧
    (handleSubmitExpense st employee_id amount currency category description date receipt_url expenseId approvalStepId now).2.status =
      Status.pending ∧
    kvGet (handleSubmitExpense st employee_id amount currency category description date receipt_url expenseId approvalStepId now).1
        ("expense:" ++ expenseId) =
      some (Val.expense (handleSubmitExpense st employee_id amount currency category description date receipt_url expenseId approvalStepId now).2) ∧
    kvGet (handleSubmitExpense st employee_id amount currency category description date receipt_url expenseId approvalStepId now).1
        ("approval_step:" ++ approvalStepId) =
      some (Val.step (mkApprovalStep expenseId mid approvalStepId now)) := by
  have hflow : handleSubmitExpense st employee_id amount currency category description date receipt_url expenseId approvalStepId now =
      createExpense st ⟨employee_id, amount, currency, serverConvert amount currency "USD", category, description, date, receipt_url⟩ expenseId approvalStepId now := rfl
  have h := createExpense_with_manager st
    ⟨employee_id, amount, currency, serverConvert amount currency "USD", category, description, date, receipt_url⟩
    expenseId approvalStepId now u mid hu hm hmne
  have hst : (handleSubmitExpense st employee_id amount currency category description date receipt_url expenseId approvalStepId now).1 =
      kvSet (kvSet st ("expense:" ++ expenseId)
          (Val.expense (mkExpense ⟨employee_id, amount, currency, serverConvert amount currency "USD", category, description, date, receipt_url⟩ expenseId now)))
        ("approval_step:" ++ approvalStepId)
        (Val.step (mkApprovalStep expenseId mid approvalStepId now)) := by
    rw [hflow, h]
  have hsnd : (handleSubmitExpense st employee_id amount currency category description date receipt_url expenseId approvalStepId now).2 =
      mkExpense ⟨employee_id, amount, currency, serverConvert amount currency "USD", category, description, date, receipt_url⟩ expenseId now := by
    rw [hflow, h]
  refine ⟨?_, ?_, ?_, ?_⟩
  · rw [hsnd]
    rfl
  · rw [hsnd]
    rfl
  · rw [hst, hsnd]
    rw [kvGet_kvSet_ne _ _ _ _ (Ne.symm (stepKey_ne_expenseKey approvalStepId expenseId))]
    exact kvGet_kvSet_self _ _ _
  · rw [hst]
    exact kvGet_kvSet_self _ _ _

/-- C5 witness: the spec example. Submitting 120 USD on 2024-01-16 in
category Transportation for employee-001 (manager manager-001) yields a
pending expense whose amount_in_company_currency is exactly 120 and a
pending approval step whose approver is manager-001. -/
theorem submit_flow_converts_witness :
    (handleSubmitExpense demoStore "employee-001" 120 "USD" "Transportation" "Uber to client meeting" "2024-01-16" none "expense-100" "approval-100" "t1").2.amount_in_company_currency = 120 ∧
    (handleSubmitExpense demoStore "employee-001" 120 "USD" "Transportation" "Uber to client meeting" "2024-01-16" none "expense-100" "approval-100" "t1").2.status = Status.pending ∧
    kvGet (handleSubmitExpense demoStore "employee-001" 120 "USD" "Transportation" "Uber to client meeting" "2024-01-16" none "expense-100" "approval-100" "t1").1
        ("approval_step:" ++ "approval-100") =
      some (Val.step (mkApprovalStep "expense-100" "manager-001" "approval-100" "t1")) ∧
    (mkApprovalStep "expense-100" "manager-001" "approval-100" "t1").approver_id = "manager-001" ∧
    (mkApprovalStep "expense-100" "manager-001" "approval-100" "t1").status = Status.pending := by
  have h := submit_flow_converts demoStore "employee-001" 120 "USD" "Transportation"
    "Uber to client meeting" "2024-01-16" none "expense-100" "approval-100" "t1"
    demoEmployee "manager-001" (by decide) rfl (by decide)
  refine ⟨?_, h.2.1, h.2.2.2, rfl, rfl⟩
  rw [h.1]
  have h1 : lookupRate "USD" "USD" = some 1 := rfl
  rw [serverConvert, h1]
  norm_num [jsOr1, jsRound]

/-- C9: deleting an existing user removes both the primary record and the
email-lookup record, after which looking that email up returns the 404
absent result; deleting a nonexistent user id returns NotFound and leaves
the store untouched. -/
theorem delete_user_removes_both_records
    (st : Store) (uid uid2 : String) (u : UserRec) :
    (kvGet st ("user:" ++ uid) = some (Val.user u) →
      deleteUser st uid =
        (kvDel (kvDel st ("user:" ++ uid)) ("user:email:" ++ u.email), true) ∧
      kvGet (deleteUser st uid).1 ("user:" ++ uid) = none ∧
      kvGet (deleteUser st uid).1 ("user:email:" ++ u.email) = none ∧
      getUserByEmail (deleteUser st uid).1 u.email = none) ∧
    (kvGet st ("user:" ++ uid2) = none → deleteUser st uid2 = (st, false)) := by
  constructor
  · intro h
    have hd : deleteUser st uid =
        (kvDel (kvDel st ("user:" ++ uid)) ("user:email:" ++ u.email), true) := by
      simp only [deleteUser, h]
    have hu : kvGet (deleteUser st uid).1 ("user:" ++ uid) = none := by
      rw [hd]
      by_cases hk : ("user:" ++ uid) = ("user:email:" ++ u.email)
      · rw [hk, kvGet_kvDel_self]
      · rw [kvGet_kvDel_ne _ _ _ hk]
        exact kvGet_kvDel_self _ _
    have hem : kvGet (deleteUser st uid).1 ("user:email:" ++ u.email) = none := by
      rw [hd]
      exact kvGet_kvDel_self _ _
    refine ⟨hd, hu, hem, ?_⟩
    simp only [getUserByEmail, hem]
  · intro h
    simp only [deleteUser, h]

/-- C9 witness: deleting employee-001 removes user:employee-001 and
user:email:employee@company.com, and the email lookup then 404s; deleting
the unknown id ghost returns NotFound with the store unchanged. -/
theorem delete_user_removes_both_records_witness :
    (deleteUser demoStore "employee-001").2 = true ∧
    kvGet (deleteUser demoStore "employee-001").1 ("user:" ++ "employee-001") = none ∧
    kvGet (deleteUser demoStore "employee-001").1 ("user:email:" ++ "employee@company.com") = none ∧
    getUserByEmail (deleteUser demoStore "employee-001").1 "employee@company.com" = none ∧
    deleteUser demoStore "ghost" = (demoStore, false) := by
  have h := delete_user_removes_both_records demoStore "employee-001" "ghost" demoEmployee
  have h1 := h.1 (by decide)
  exact ⟨by rw [h1.1], h1.2.1, h1.2.2.1, h1.2.2.2, h.2 (by decide)⟩

end ExpenseManager
